import Mathlib

/-!
Shallow embedding of the core of the portfolio_data dashboard
(`aggregation.py`, `filters.py`, `visualization.py`, `data_loader.py`)
together with proofs about its filtering, aggregation and chart-building
behaviour.

Modelling conventions:
* a pandas `DataFrame` is a `Table`: a list of named, dtype-tagged columns
  plus a list of rows, each row a list of cells;
* a scalar cell is `Option Val`, `none` standing for a missing value
  (`NaN` / `NaT`); pandas numbers are modelled as `ℚ`, timestamps as `ℤ`
  (an epoch offset), everything else as `String`;
* `pd.to_datetime(..., errors="coerce")` element conversion is modelled by
  `parseTs`: numbers convert via their floor (epoch semantics), strings
  convert exactly when they are integer literals (a concrete, decidable
  stand-in for "strings that parse as dates"), failures become `none`;
* Python exceptions are modelled by `Except PyError`; `PyError.configError`
  is the error class the design document prescribes, kept in the type so
  that statements about it can be made — no function below ever produces it,
  mirroring the sources, which contain no such class;
* Python's `sorted` on a homogeneous column is modelled by a total order
  `valLeB` (numbers numerically, strings lexicographically, timestamps by
  epoch); the order totalises Python's partial cross-type comparison by
  ranking constructors, which is never exercised by a homogeneous column.
-/

/-- Scalar value stored in a table cell: a number (pandas numeric dtypes,
modelled as `ℚ`), a timestamp (epoch offset) or a string. -/
inductive Val where
  | vNum (q : ℚ)
  | vTs (t : ℤ)
  | vStr (s : String)
deriving DecidableEq, Repr

/-- Missing values (`NaN`, `NaT`) are `none`. -/
abbrev Cell := Option Val

/-- Constructor rank, used only to totalise comparisons across types. -/
def Val.rank : Val → ℕ
  | .vNum _ => 0
  | .vTs _ => 1
  | .vStr _ => 2

/-- Lexicographic comparison of strings by code point, the order Python
uses for strings; stated over the underlying character lists. -/
def charListLeB : List Char → List Char → Bool
  | [], _ => true
  | _ :: _, [] => false
  | c :: cs, d :: ds => if c = d then charListLeB cs ds else decide (c.toNat < d.toNat)

/-- Total order on values: numbers numerically, timestamps by epoch,
strings lexicographically by code point; across constructors by rank. -/
def valLeB : Val → Val → Bool
  | .vNum p, .vNum q => decide (p ≤ q)
  | .vTs m, .vTs n => decide (m ≤ n)
  | .vStr s, .vStr t => charListLeB s.data t.data
  | a, b => decide (a.rank ≤ b.rank)

/-- Python `str(value)`, as used by the specification's description of
filtering; numbers print as rationals, timestamps as integers. -/
def valToString : Val → String
  | .vNum q => toString q
  | .vTs t => toString t
  | .vStr s => s

/-- Order on cells: pandas sorts missing values last. -/
def cellLeB : Cell → Cell → Bool
  | none, none => true
  | none, some _ => false
  | some _, none => true
  | some a, some b => valLeB a b

/-- Lexicographic order on grouping-key tuples (pandas sorts grouped output
by ascending key tuple, missing keys last per level). -/
def keyLeB : List Cell → List Cell → Bool
  | [], _ => true
  | _ :: _, [] => false
  | a :: as, b :: bs => if a = b then keyLeB as bs else cellLeB a b

/-- Strict lexicographic order on key tuples. -/
def keyLtB : List Cell → List Cell → Bool
  | _, [] => false
  | [], _ :: _ => true
  | a :: as, b :: bs => if a = b then keyLtB as bs else cellLeB a b

/-- Propositional form of `keyLeB`, the relation the grouped rows are
sorted by. -/
def keyLe (a b : List Cell) : Prop := keyLeB a b = true

/-- Propositional form of `keyLtB`: strictly ascending key tuples. -/
def keyLt (a b : List Cell) : Prop := keyLtB a b = true

instance : DecidableRel keyLe :=
  fun a b => inferInstanceAs (Decidable (keyLeB a b = true))

instance : DecidableRel keyLt :=
  fun a b => inferInstanceAs (Decidable (keyLtB a b = true))

/-- Sort a list of key tuples ascending and drop duplicates: the model of
the ordered group enumeration that `DataFrame.groupby(..., sort=True)`
produces. -/
def sortKeys (ks : List (List Cell)) : List (List Cell) :=
  List.insertionSort keyLe ks.dedup

/-! Table model: pandas DataFrames as dtype-tagged named columns plus rows. -/

/-- Column dtype tag, fixed at load time by pandas type inference. -/
inductive DType where
  | numeric
  | datetime
  | object
deriving DecidableEq, Repr

/-- In-memory table: named, dtype-tagged columns and rows of cells.
Row `j`, column `i` is `rows[j][i]`. -/
structure Table where
  cols : List (String × DType)
  rows : List (List Cell)
deriving DecidableEq, Repr

/-- Column-membership test (`name in df.columns`). -/
def Table.hasCol (t : Table) (name : String) : Bool :=
  t.cols.any (fun c => c.1 = name)

/-- Index of a column by name (first match, like pandas label lookup). -/
def Table.colIdx (t : Table) (name : String) : Option ℕ :=
  t.cols.findIdx? (fun c => c.1 = name)

/-- Dtype of a named column (`.object` when absent; only consulted for
present columns). -/
def Table.dtypeOf (t : Table) (name : String) : DType :=
  match t.colIdx name with
  | some i => ((t.cols.getD i ("", .object))).2
  | none => .object

/-- Cell of one row in a named column; missing column or short row reads
as a missing value (only reached for present columns). -/
def rowCell (t : Table) (name : String) (row : List Cell) : Cell :=
  match t.colIdx name with
  | some i => row.getD i none
  | none => none

/-- Values of a named column, top to bottom (`df[name]`). -/
def Table.col (t : Table) (name : String) : List Cell :=
  match t.colIdx name with
  | some i => t.rows.map (fun row => row.getD i none)
  | none => []

/-- Keep the rows satisfying a predicate (`df[mask]`); returns a copy. -/
def Table.filterRows (t : Table) (p : List Cell → Bool) : Table :=
  { cols := t.cols, rows := t.rows.filter p }

/-- Model of `df.assign(**{name: cells})` for a present column: replace the
column's cells and dtype. When the column is absent it is appended (pandas
appends; the sources only assign to present columns). -/
def Table.assign (t : Table) (name : String) (dtype : DType) (cells : List Cell) : Table :=
  match t.colIdx name with
  | some i =>
      { cols := t.cols.set i (name, dtype),
        rows := List.zipWith (fun row c => row.set i c) t.rows cells }
  | none =>
      { cols := t.cols ++ [(name, dtype)],
        rows := List.zipWith (fun row c => row ++ [c]) t.rows cells }

/-- Model of `df.empty`: true when either axis has length zero. -/
def Table.isEmptyTable (t : Table) : Bool :=
  t.rows.isEmpty || t.cols.isEmpty

/-- Python exception classes that the modelled code can raise.
`configError` is the class §7 of the design document prescribes for invalid
chart configurations; it is representable here so that statements about it
can be made, but no function of this development ever produces it — the
sources define no such class and raise plain `KeyError` / `IndexError`. -/
inductive PyError where
  | keyError (key : String)
  | indexError (msg : String)
  | valueError (msg : String)
  | typeError (msg : String)
  | configError (msg : String)
deriving DecidableEq, Repr

instance {ε α : Type} [DecidableEq ε] [DecidableEq α] : DecidableEq (Except ε α)
  | .ok a, .ok b => decidable_of_iff (a = b) (by simp)
  | .ok _, .error _ => isFalse (by simp)
  | .error _, .ok _ => isFalse (by simp)
  | .error e, .error f => decidable_of_iff (e = f) (by simp)

/-! Embedding of `aggregation.py`. -/

/-- The `ChartConfig` dataclass of `visualization.py`. Every field is a
plain string exactly as in the source: absent optional dimensions are the
string `"(none)"`, not a real absence. `build_chart_data` receives this
record (the source passes `config.__dict__`). -/
structure ChartConfig where
  chart_type : String
  x_axis : String
  y_axis : String
  aggregation : String
  color_dimension : String
  line_symbol : String
  line_dash : String
  bar_pattern : String
  bar_facet : String
  layout_height : ℤ
deriving DecidableEq, Repr

/-- The `AGGREGATIONS` dict of `aggregation.py`, in source order. -/
def AGGREGATIONS : List (String × Option String) :=
  [("None (raw rows)", none),
   ("Count", some "count"),
   ("Sum", some "sum"),
   ("Mean", some "mean"),
   ("Min", some "min"),
   ("Max", some "max")]

/-- Grouping-key list of `build_chart_data`, in the source's append order:
`x_axis`; `color_dimension` when not the `"(none)"` sentinel; for `Line`
charts `line_symbol` then `line_dash`; for `Bar` charts `bar_pattern` then
`bar_facet`. -/
def groupersOf (config : ChartConfig) : List String :=
  [config.x_axis]
    ++ (if config.color_dimension ≠ "(none)" then [config.color_dimension] else [])
    ++ (if config.chart_type = "Line" then
          (if config.line_symbol ≠ "(none)" then [config.line_symbol] else [])
            ++ (if config.line_dash ≠ "(none)" then [config.line_dash] else [])
        else [])
    ++ (if config.chart_type = "Bar" then
          (if config.bar_pattern ≠ "(none)" then [config.bar_pattern] else [])
            ++ (if config.bar_facet ≠ "(none)" then [config.bar_facet] else [])
        else [])

/-- Sum of the numeric entries of a group (pandas `sum` over a numeric
column; missing values are skipped). -/
def sumNums (vals : List Val) : ℚ :=
  (vals.map (fun v => match v with | .vNum q => q | _ => 0)).sum

/-- Sum of the timestamp entries of a group, used by the datetime `mean`
(pandas computes the mean of a datetime column from the epoch values). -/
def sumTs (vals : List Val) : ℤ :=
  (vals.map (fun v => match v with | .vTs n => n | _ => 0)).sum

/-- Concatenation of the string entries of a group: pandas `sum` over an
object column of strings concatenates them (and yields numeric `0` on an
all-missing group, the reduction's initial value). -/
def concatStrs (vals : List Val) : Val :=
  match vals with
  | [] => .vNum 0
  | _ => .vStr (String.join (vals.map (fun v =>
      match v with | .vStr s => s | _ => "")))

/-- Fold producing the least value of a list under `valLeB`. -/
def minVal : List Val → Option Val
  | [] => none
  | v :: vs =>
      match minVal vs with
      | none => some v
      | some w => some (if valLeB v w then v else w)

/-- Fold producing the greatest value of a list under `valLeB`. -/
def maxVal : List Val → Option Val
  | [] => none
  | v :: vs =>
      match maxVal vs with
      | none => some v
      | some w => some (if valLeB w v then v else w)

/-- Reduction of the selected `y_axis` cells of one group by a pandas
aggregation function; missing values are skipped, as pandas does. The
result depends on the column's dtype as in pandas: `sum` over an object
column concatenates strings, `mean` over a datetime column averages the
epoch values. The combinations on which pandas raises `TypeError` —
`mean` over an object column and `sum` over a datetime column — are
guarded in `build_chart_data` and never reach this function. -/
def aggFn (f : String) (dtype : DType) (cells : List Cell) : Cell :=
  let vals := cells.filterMap id
  match f with
  | "count" => some (.vNum vals.length)
  | "sum" =>
      if dtype = .object then some (concatStrs vals)
      else some (.vNum (sumNums vals))
  | "mean" =>
      if vals.length = 0 then none
      else if dtype = .datetime then some (.vTs (sumTs vals / vals.length))
      else some (.vNum (sumNums vals / vals.length))
  | "min" => minVal vals
  | "max" => maxVal vals
  | _ => none

/-- Embedding of `build_chart_data(filtered_data, config)`: with aggregation
`"None (raw rows)"` return a copy; otherwise look the aggregation up in
`AGGREGATIONS` (a missing key raises `KeyError`), group by the grouping-key
list (a missing grouping column raises `KeyError`, missing keys form their
own groups as `dropna=False` demands), select `y_axis` (missing raises
`KeyError`) and reduce it per group; groups are emitted sorted ascending by
key tuple, as `groupby(..., sort=True)` does. Two aggregation/dtype
combinations make pandas's `.agg` raise `TypeError`: `mean` over an object
column (strings cannot be averaged) and `sum` over a datetime column
(timestamps cannot be summed); the checks run in the source's order —
grouping-column `KeyError`, then `y_axis` `KeyError`, then the dtype
`TypeError` from the reduction itself. -/
def build_chart_data (filtered_data : Table) (config : ChartConfig) :
    Except PyError Table :=
  if config.aggregation = "None (raw rows)" then .ok filtered_data
  else
    match AGGREGATIONS.lookup config.aggregation with
    | none => .error (.keyError config.aggregation)
    | some none => .ok filtered_data
    | some (some f) =>
        let groupers := groupersOf config
        match groupers.find? (fun g => !(filtered_data.hasCol g)) with
        | some g => .error (.keyError g)
        | none =>
            if !(filtered_data.hasCol config.y_axis) then .error (.keyError config.y_axis)
            else if (f = "mean" ∧ filtered_data.dtypeOf config.y_axis = .object) ∨
                (f = "sum" ∧ filtered_data.dtypeOf config.y_axis = .datetime) then
              .error (.typeError "agg function failed")
            else
              let keyOf := fun row => groupers.map (fun g => rowCell filtered_data g row)
              let sorted := sortKeys (filtered_data.rows.map keyOf)
              .ok
                { cols :=
                    groupers.map (fun g => (g, filtered_data.dtypeOf g))
                      ++ [(config.y_axis, filtered_data.dtypeOf config.y_axis)],
                  rows :=
                    sorted.map (fun k =>
                      k ++ [aggFn f (filtered_data.dtypeOf config.y_axis)
                        (filtered_data.rows.filterMap (fun row =>
                          if keyOf row = k then some (rowCell filtered_data config.y_axis row)
                          else none))]) }

/-! Embedding of `filters.py`. -/

/-- Value of a decimal digit character, `none` for any other character. -/
def digitVal (c : Char) : Option ℕ :=
  if 48 ≤ c.toNat ∧ c.toNat ≤ 57 then some (c.toNat - 48) else none

/-- Parse a non-empty decimal digit string into a number. -/
def parseNatDigits (cs : List Char) : Option ℕ :=
  match cs with
  | [] => none
  | _ :: _ =>
      cs.foldl (fun acc c =>
        match acc, digitVal c with
        | some n, some d => some (10 * n + d)
        | _, _ => none) (some 0)

/-- Parse an optionally signed integer literal. -/
def parseIntStr (s : String) : Option ℤ :=
  match s.data with
  | '-' :: rest => (parseNatDigits rest).map (fun n => -(n : ℤ))
  | cs => (parseNatDigits cs).map (fun n => (n : ℤ))

/-- Element conversion of `pd.to_datetime(..., errors="coerce")`: numbers
convert by their floor (epoch semantics, always successful), strings
convert exactly when they are integer literals (the model's decidable
stand-in for date parsing), timestamps pass through. -/
def parseTs : Val → Option ℤ
  | .vNum q => some ⌊q⌋
  | .vTs t => some t
  | .vStr s => parseIntStr s

/-- Cell-level coercion to a timestamp; failures and missing become
missing (`NaT`). -/
def coerceCell (c : Cell) : Cell :=
  c.bind (fun v => (parseTs v).map .vTs)

/-- Model of `pd.to_datetime(series, errors="coerce")` over a column. -/
def to_datetime (cells : List Cell) : List Cell :=
  cells.map coerceCell

/-- Embedding of `_coerce_datetime(series)`: a column that already has
datetime dtype is returned unchanged, anything else is converted. -/
def coerce_datetime_series (dtype : DType) (cells : List Cell) : List Cell :=
  if dtype = .datetime then cells else to_datetime cells

/-- Embedding of `_is_datetime_like(series, threshold=0.8)`: false when no
value converts, else true when the fraction of convertible values reaches
the threshold. The source compares `converted.notna().mean() >= 0.8`; over
exact arithmetic `succ / len ≥ 4/5  ↔  5 * succ ≥ 4 * len`, which is the
decidable form used here. -/
def is_datetime_like (cells : List Cell) : Bool :=
  let converted := to_datetime cells
  let succ := (converted.filterMap id).length
  if succ = 0 then false
  else decide (5 * succ ≥ 4 * converted.length)

/-- Propositional form of the native value order, the order Python
`sorted` applies to a homogeneous column. -/
def valLe (a b : Val) : Prop := valLeB a b = true

instance : DecidableRel valLe :=
  fun a b => inferInstanceAs (Decidable (valLeB a b = true))

/-- Embedding of `_safe_unique(values)`: the distinct non-missing values,
in their native representation, sorted by the native order `valLe` — the
source applies Python `sorted` to a set comprehension and performs no
string conversion. -/
def safe_unique (cells : List Cell) : List Val :=
  List.insertionSort valLe (cells.filterMap id).dedup

/-- Widget state of `render_filters`, the data the streamlit controls hand
to the filtering code on one run: the two selected columns (`none` models
the `"(none)"` choice), the chosen title values (native values, as a
multiselect returns), and the two slider ranges (`none` models an
untouched slider, whose value defaults to the data's full span). -/
structure FilterSpec where
  title_column : Option String
  title_values : List Val
  title_range : Option (ℤ × ℤ)
  time_column : Option String
  time_range : Option (ℤ × ℤ)
deriving DecidableEq, Repr

/-- Timestamp carried by a cell of a datetime column, `none` for `NaT`. -/
def cellTs : Cell → Option ℤ
  | some (.vTs n) => some n
  | _ => none

/-- Least timestamp of a datetime column, skipping missing values
(`series.min()`). -/
def seriesMin (cells : List Cell) : Option ℤ :=
  (cells.filterMap cellTs).min?

/-- Greatest timestamp of a datetime column, skipping missing values
(`series.max()`). -/
def seriesMax (cells : List Cell) : Option ℤ :=
  (cells.filterMap cellTs).max?

/-- Inclusive interval test of `Series.between(start, end)`; a missing or
unconverted cell is never between. -/
def betweenTs (c : Cell) (start stop : ℤ) : Bool :=
  match c with
  | some (.vTs n) => decide (start ≤ n) && decide (n ≤ stop)
  | _ => false

/-- Title branch of `render_filters`: when the selected column has datetime
dtype or looks datetime-like, replace it by its coerced values and — when
both bounds exist — keep the rows inside the slider range (the slider
defaults to the full data span); when a bound is missing, only warn and
keep every row. Otherwise filter by membership of the native value in the
multiselect choice, skipping the filter when the choice is empty. -/
def applyTitle (t : Table) (spec : FilterSpec) (col : String) : Except PyError Table :=
  if !(t.hasCol col) then .error (.keyError col)
  else
    let series := t.col col
    if t.dtypeOf col = .datetime ∨ is_datetime_like series = true then
      let converted := coerce_datetime_series (t.dtypeOf col) series
      let t2 := t.assign col .datetime converted
      match seriesMin converted, seriesMax converted with
      | some mn, some mx =>
          let r := spec.title_range.getD (mn, mx)
          .ok (t2.filterRows (fun row => betweenTs (rowCell t2 col row) r.1 r.2))
      | _, _ => .ok t2
    else
      if spec.title_values ≠ [] then
        .ok (t.filterRows (fun row =>
          match rowCell t col row with
          | some v => spec.title_values.contains v
          | none => false))
      else .ok t

/-- Time branch of `render_filters`: always coerce and re-assign the
selected column, then — when both bounds exist — keep rows inside the
slider range; when a bound is missing, only warn and keep every row. -/
def applyTime (t : Table) (spec : FilterSpec) (col : String) : Except PyError Table :=
  if !(t.hasCol col) then .error (.keyError col)
  else
    let converted := coerce_datetime_series (t.dtypeOf col) (t.col col)
    let t2 := t.assign col .datetime converted
    match seriesMin converted, seriesMax converted with
    | some mn, some mx =>
        let r := spec.time_range.getD (mn, mx)
        .ok (t2.filterRows (fun row => betweenTs (rowCell t2 col row) r.1 r.2))
    | _, _ => .ok t2

/-- Embedding of `render_filters(data)` as a function of the table and the
widget state: the title filter runs first on a copy, then the time filter
on its result. -/
def render_filters (data : Table) (spec : FilterSpec) : Except PyError Table := do
  let t1 ←
    match spec.title_column with
    | none => Except.ok data
    | some col => applyTitle data spec col
  match spec.time_column with
  | none => Except.ok t1
  | some col => applyTime t1 spec col

/-- Behaviour the claim under review ascribes to a datetime-like title
column: the column is replaced by its coerced values and rows are kept by
an inclusive between test over the chosen range (defaulting to the data's
full span). Stated from the claim's words for comparison with
`render_filters`; the fallback bound `0` is only reached when the column
has no convertible value. -/
def titleTimeFilter (t : Table) (col : String) (range : Option (ℤ × ℤ)) : Table :=
  let converted := coerce_datetime_series (t.dtypeOf col) (t.col col)
  let t2 := t.assign col .datetime converted
  let r := range.getD ((seriesMin converted).getD 0, (seriesMax converted).getD 0)
  t2.filterRows (fun row => betweenTs (rowCell t2 col row) r.1 r.2)

/-! Embedding of `visualization.py`. -/

/-- The `CHART_TYPES` list of `visualization.py`. -/
def CHART_TYPES : List String := ["Line", "Bar", "Pie", "Heatmap"]

/-- Embedding of `ChartBuilder.default_config(columns, numeric_columns)`:
first column, first numeric column, raw rows, all optional dimensions set
to the `"(none)"` sentinel, height 480. Indexing an empty list raises
`IndexError`, as `columns[0]` does. -/
def default_config (columns numeric_columns : List String) :
    Except PyError ChartConfig :=
  match columns, numeric_columns with
  | c :: _, n :: _ =>
      .ok { chart_type := "Line", x_axis := c, y_axis := n,
            aggregation := "None (raw rows)", color_dimension := "(none)",
            line_symbol := "(none)", line_dash := "(none)",
            bar_pattern := "(none)", bar_facet := "(none)", layout_height := 480 }
  | [], _ => .error (.indexError "list index out of range")
  | _, [] => .error (.indexError "list index out of range")

/-- Embedding of `ChartBuilder.to_config(...)`: the source constructs the
dataclass directly from its arguments and performs no check of any kind. -/
def to_config (chart_type x_axis y_axis aggregation color_dimension line_symbol
    line_dash bar_pattern bar_facet : String) (layout_height : ℤ) : ChartConfig :=
  { chart_type := chart_type, x_axis := x_axis, y_axis := y_axis,
    aggregation := aggregation, color_dimension := color_dimension,
    line_symbol := line_symbol, line_dash := line_dash,
    bar_pattern := bar_pattern, bar_facet := bar_facet,
    layout_height := layout_height }

/-- Sentinel decoding used by `build_figure`'s keyword arguments:
`None if field == "(none)" else field`. -/
def dimOpt (s : String) : Option String :=
  if s = "(none)" then none else some s

/-- Declarative chart specification, the modelled result of
`ChartBuilder.build_figure`: either the placeholder figure of the empty
branch (`px.scatter().update_layout(...)`) or one plotly-express call with
its keyword arguments and the final layout height. -/
inductive Figure where
  | placeholder (title : String) (xaxisVisible yaxisVisible : Bool) (height : ℤ)
  | line (data : Table) (x y : String) (color symbol line_dash : Option String)
      (height : ℤ)
  | bar (data : Table) (x y : String) (color pattern_shape facet_col : Option String)
      (barmode : String) (height : ℤ)
  | pie (data : Table) (names values : String) (color : Option String) (height : ℤ)
  | heatmap (data : Table) (x y : String) (z : Option String) (histfunc : String)
      (height : ℤ)
deriving DecidableEq, Repr

/-- Columns a plotly-express call dereferences; the call raises when one is
absent from the data. -/
def figureRefs (config : ChartConfig) : List String :=
  [config.x_axis, config.y_axis]
    ++ (dimOpt config.color_dimension).toList
    ++ (if config.chart_type = "Line" then
          (dimOpt config.line_symbol).toList ++ (dimOpt config.line_dash).toList
        else [])
    ++ (if config.chart_type = "Bar" then
          (dimOpt config.bar_pattern).toList ++ (dimOpt config.bar_facet).toList
        else [])

/-- Embedding of `ChartBuilder.build_figure(chart_data, config)`: an empty
table short-circuits to the placeholder figure (hidden axes, explanatory
title, configured height) before anything else can fail; otherwise the
chart-type branch builds one plotly-express figure (raising `ValueError`
when a referenced column is absent, as plotly does) and the final
`update_layout` fixes the height. -/
def build_figure (chart_data : Table) (config : ChartConfig) : Except PyError Figure :=
  if chart_data.isEmptyTable then
    .ok (.placeholder "No data after filtering" false false config.layout_height)
  else if (figureRefs config).any (fun c => !(chart_data.hasCol c)) then
    .error (.valueError "column not found in data")
  else if config.chart_type = "Line" then
    .ok (.line chart_data config.x_axis config.y_axis
      (dimOpt config.color_dimension) (dimOpt config.line_symbol)
      (dimOpt config.line_dash) config.layout_height)
  else if config.chart_type = "Bar" then
    .ok (.bar chart_data config.x_axis config.y_axis
      (dimOpt config.color_dimension) (dimOpt config.bar_pattern)
      (dimOpt config.bar_facet)
      (if config.color_dimension ≠ "(none)" then "stack" else "group")
      config.layout_height)
  else if config.chart_type = "Pie" then
    .ok (.pie chart_data config.x_axis config.y_axis
      (dimOpt config.color_dimension) config.layout_height)
  else
    .ok (.heatmap chart_data config.x_axis config.y_axis
      (if config.aggregation ≠ "None (raw rows)" then some config.y_axis else none)
      (((AGGREGATIONS.lookup config.aggregation).join).getD "count")
      config.layout_height)

/-! Embedding of `data_loader.py`. -/

/-- The `CsvPayload` dataclass: a parsed table or an error message. -/
structure CsvPayload where
  dataframe : Option Table
  error : Option String
deriving DecidableEq, Repr

/-- Base64 alphabet membership. -/
def isB64Char (c : Char) : Bool :=
  (65 ≤ c.toNat && c.toNat ≤ 90) || (97 ≤ c.toNat && c.toNat ≤ 122) ||
    (48 ≤ c.toNat && c.toNat ≤ 57) || c = '+' || c = '/' || c = '='

/-- Model of `base64.b64decode` with its default `validate=False`:
characters outside the alphabet are discarded, and the call raises
`binascii.Error` exactly when the remaining length is not a multiple of
four; the decoded bytes themselves are modelled by the retained text. -/
def b64decode (s : String) : Except PyError String :=
  let kept := s.data.filter isB64Char
  if kept.length % 4 = 0 then .ok (String.mk kept)
  else .error (.valueError "Invalid base64-encoded string")

/-- Split a character list at the first comma, when one exists. -/
def splitFirstComma (cs : List Char) : Option (List Char × List Char) :=
  match cs with
  | [] => none
  | c :: rest =>
      if c = ',' then some ([], rest)
      else (splitFirstComma rest).map (fun p => (c :: p.1, p.2))

/-- Toy stand-in for `pd.read_csv` over the decoded bytes: empty input
raises (as pandas' `EmptyDataError` does); otherwise the first line names
`object`-typed columns and the remaining lines provide string cells. -/
def read_csv (s : String) : Except String Table :=
  if s.data.isEmpty then .error "No columns to parse from file"
  else
    let lines := s.data.splitOn '\n'
    match lines with
    | [] => .error "No columns to parse from file"
    | header :: body =>
        let names := (header.splitOn ',').map String.mk
        .ok { cols := names.map (fun n => (n, DType.object)),
              rows := body.map (fun line =>
                ((line.splitOn ',').map (fun cell => some (.vStr (String.mk cell))))) }

/-- Embedding of `CsvDataLoader.parse_contents(contents, filename)`: empty
contents and a missing comma separator produce error payloads, a base64
failure propagates as an exception, a `read_csv` failure produces an error
payload naming the file, success wraps the parsed table. -/
def parse_contents (contents : String) (filename : Option String) :
    Except PyError CsvPayload :=
  if contents = "" then
    .ok { dataframe := none, error := some "No file contents provided." }
  else
    match splitFirstComma contents.data with
    | none => .ok { dataframe := none, error := some "Invalid upload payload." }
    | some (_, content_string) =>
        match b64decode (String.mk content_string) with
        | .error e => .error e
        | .ok decoded =>
            match read_csv decoded with
            | .error exc =>
                .ok { dataframe := none,
                      error := some ("Unable to read " ++ filename.getD "CSV" ++ ": " ++ exc) }
            | .ok df => .ok { dataframe := some df, error := none }

/-! Formal statements of the claims under review, written from the claims' words
so that a counterexample can refute them. -/

/-- Claim under review: filtering is idempotent — for every table and every
filter widget state, applying `render_filters` twice equals applying it
once. -/
def C4_claim : Prop :=
  ∀ (t : Table) (spec : FilterSpec),
    (render_filters t spec).bind (fun u => render_filters u spec) = render_filters t spec

/-- Claim under review: whenever the selected title column has datetime
dtype or is at least 80% timestamp-parseable with one success, the title
filter replaces the column by its coerced values and keeps rows by the
inclusive between-interval test over the chosen range. -/
def C10_claim : Prop :=
  ∀ (t : Table) (spec : FilterSpec) (col : String),
    spec.title_column = some col → t.hasCol col = true →
    (t.dtypeOf col = .datetime ∨ is_datetime_like (t.col col) = true) →
    spec.time_column = none →
    render_filters t spec = .ok (titleTimeFilter t col spec.title_range)

/-- Claim under review: with a title column selected and a non-empty title
choice, the filter keeps exactly the rows whose value, converted to its
string representation, is a member of the chosen titles — so numeric and
categorical columns filter identically. -/
def C7_claim : Prop :=
  ∀ (t : Table) (spec : FilterSpec) (col : String),
    spec.title_column = some col → t.hasCol col = true →
    spec.title_values ≠ [] → spec.time_column = none →
    render_filters t spec = .ok (t.filterRows (fun row =>
      match rowCell t col row with
      | some v => (spec.title_values.map valToString).contains (valToString v)
      | none => false))

/-- Claim under review: `uniqueValues` returns the distinct non-missing
values of the column converted to strings and sorted lexicographically. -/
def C6_claim : Prop :=
  ∀ cells : List Cell,
    (safe_unique cells).map valToString =
      List.insertionSort (fun a b : String => charListLeB a.data b.data = true)
        ((cells.filterMap id).map valToString).dedup

/-- Claim under review: configuration validation rejects an unrecognized
chart type, a height outside `[320, 800]`, absent columns or a non-numeric
y-axis — so every configuration the program constructs passes those
checks. -/
def C2_claim : Prop :=
  ∀ (ct x y agg cd ls ld bp bf : String) (h : ℤ),
    (to_config ct x y agg cd ls ld bp bf h).chart_type ∈ CHART_TYPES ∧
    320 ≤ (to_config ct x y agg cd ls ld bp bf h).layout_height ∧
    (to_config ct x y agg cd ls ld bp bf h).layout_height ≤ 800

/-- Claim under review: an absent optional dimension is represented by a
real absence in every constructed configuration, never by a sentinel
string such as `"(none)"`. -/
def C8_claim : Prop :=
  ∀ (cols ncols : List String) (cfg : ChartConfig),
    default_config cols ncols = .ok cfg →
    cfg.color_dimension ≠ "(none)" ∧ cfg.line_symbol ≠ "(none)" ∧
    cfg.line_dash ≠ "(none)" ∧ cfg.bar_pattern ≠ "(none)" ∧ cfg.bar_facet ≠ "(none)"

/-- Claim under review: aggregation fails with a `ConfigError` — and with no
other kind of failure — exactly when `y_axis` is absent, a grouping-key
column is absent, or the aggregation is not one of the six recognized
values. -/
def C3_claim : Prop :=
  ∀ (t : Table) (cfg : ChartConfig),
    ((∃ e, build_chart_data t cfg = .error e) ↔
      (t.hasCol cfg.y_axis = false ∨ (∃ g ∈ groupersOf cfg, t.hasCol g = false) ∨
        AGGREGATIONS.lookup cfg.aggregation = none)) ∧
    (∀ e, build_chart_data t cfg = .error e → ∃ msg, e = .configError msg)

/-- Grouping-key behaviour the claim under review ascribes to the
aggregator: the grouping keys in the fixed order, one output row per
distinct key tuple, output rows ascending in the strict lexicographic key
order. -/
def C1_prop (t : Table) (cfg : ChartConfig) : Prop :=
  ∃ out, build_chart_data t cfg = .ok out ∧
    groupersOf cfg =
      [cfg.x_axis]
        ++ (if cfg.color_dimension ≠ "(none)" then [cfg.color_dimension] else [])
        ++ (if cfg.chart_type = "Line" then
              (if cfg.line_symbol ≠ "(none)" then [cfg.line_symbol] else [])
                ++ (if cfg.line_dash ≠ "(none)" then [cfg.line_dash] else [])
            else [])
        ++ (if cfg.chart_type = "Bar" then
              (if cfg.bar_pattern ≠ "(none)" then [cfg.bar_pattern] else [])
                ++ (if cfg.bar_facet ≠ "(none)" then [cfg.bar_facet] else [])
            else []) ∧
    out.cols.map Prod.fst = groupersOf cfg ++ [cfg.y_axis] ∧
    List.Chain' keyLt (out.rows.map (fun r => r.take (groupersOf cfg).length)) ∧
    (∀ k, k ∈ out.rows.map (fun r => r.take (groupersOf cfg).length) ↔
      ∃ row ∈ t.rows, (groupersOf cfg).map (fun g => rowCell t g row) = k)

/-! Proofs: order lemmas, structural lemmas about tables, and the claim
theorems with their counterexamples and witnesses. -/

theorem charListLeB_refl (s : List Char) : charListLeB s s = true := by
  induction s with
  | nil => rfl
  | cons c cs ih => simp [charListLeB, ih]

theorem charListLeB_total (s t : List Char) :
    charListLeB s t = true ∨ charListLeB t s = true := by
  induction s generalizing t with
  | nil => simp [charListLeB]
  | cons c cs ih =>
    cases t with
    | nil => simp [charListLeB]
    | cons d ds =>
      by_cases hcd : c = d
      · subst hcd
        simpa [charListLeB] using ih ds
      · simp only [charListLeB, if_neg hcd, if_neg (Ne.symm hcd), decide_eq_true_eq]
        have : c.toNat ≠ d.toNat := fun h => hcd (Char.ext (UInt32.ext h))
        omega

theorem charListLeB_trans {s t u : List Char} (hst : charListLeB s t = true)
    (htu : charListLeB t u = true) : charListLeB s u = true := by
  induction s generalizing t u with
  | nil => simp [charListLeB]
  | cons c cs ih =>
    cases t with
    | nil => simp [charListLeB] at hst
    | cons d ds =>
      cases u with
      | nil => simp [charListLeB] at htu
      | cons e es =>
        by_cases hcd : c = d <;> by_cases hde : d = e
        · subst hcd; subst hde
          simp only [charListLeB, if_pos rfl] at hst htu ⊢
          exact ih hst htu
        · subst hcd
          simp only [charListLeB, if_pos rfl, if_neg hde] at htu ⊢
          exact htu
        · subst hde
          simp only [charListLeB, if_pos rfl, if_neg hcd] at hst ⊢
          exact hst
        · simp only [charListLeB, if_neg hcd, if_neg hde, decide_eq_true_eq] at hst htu
          by_cases hce : c = e
          · subst hce
            omega
          · simp only [charListLeB, if_neg hce, decide_eq_true_eq]
            omega

theorem charListLeB_antisymm {s t : List Char} (hst : charListLeB s t = true)
    (hts : charListLeB t s = true) : s = t := by
  induction s generalizing t with
  | nil =>
    cases t with
    | nil => rfl
    | cons d ds => simp [charListLeB] at hts
  | cons c cs ih =>
    cases t with
    | nil => simp [charListLeB] at hst
    | cons d ds =>
      by_cases hcd : c = d
      · subst hcd
        simp only [charListLeB, if_pos rfl] at hst hts
        exact congrArg _ (ih hst hts)
      · simp only [charListLeB, if_neg hcd, if_neg (Ne.symm hcd), decide_eq_true_eq]
          at hst hts
        omega

theorem valLeB_refl (a : Val) : valLeB a a = true := by
  cases a <;> simp [valLeB, charListLeB_refl]

theorem valLeB_total (a b : Val) : valLeB a b = true ∨ valLeB b a = true := by
  cases a <;> cases b <;> simp [valLeB, Val.rank] <;>
    first
      | exact le_total _ _
      | exact charListLeB_total _ _

theorem valLeB_trans {a b c : Val} (hab : valLeB a b = true) (hbc : valLeB b c = true) :
    valLeB a c = true := by
  cases a <;> cases b <;> cases c <;>
    simp_all [valLeB, Val.rank] <;>
    first
      | exact le_trans hab hbc
      | exact charListLeB_trans hab hbc

theorem valLeB_antisymm {a b : Val} (hab : valLeB a b = true) (hba : valLeB b a = true) :
    a = b := by
  cases a <;> cases b <;>
    simp only [valLeB, Val.rank, decide_eq_true_eq] at hab hba <;>
    first
      | rfl
      | omega
      | exact congrArg _ (le_antisymm hab hba)
      | exact congrArg Val.vStr (String.ext (charListLeB_antisymm hab hba))

theorem cellLeB_refl (a : Cell) : cellLeB a a = true := by
  cases a <;> simp [cellLeB, valLeB_refl]

theorem cellLeB_total (a b : Cell) : cellLeB a b = true ∨ cellLeB b a = true := by
  cases a <;> cases b <;> simp [cellLeB]
  exact valLeB_total _ _

theorem cellLeB_trans {a b c : Cell} (hab : cellLeB a b = true) (hbc : cellLeB b c = true) :
    cellLeB a c = true := by
  cases a <;> cases b <;> cases c <;> simp_all [cellLeB]
  exact valLeB_trans hab hbc

theorem cellLeB_antisymm {a b : Cell} (hab : cellLeB a b = true) (hba : cellLeB b a = true) :
    a = b := by
  cases a <;> cases b <;> simp_all [cellLeB]
  exact valLeB_antisymm hab hba

theorem keyLeB_refl (a : List Cell) : keyLeB a a = true := by
  induction a with
  | nil => rfl
  | cons x xs ih => simp [keyLeB, ih]

theorem keyLeB_total (a b : List Cell) : keyLeB a b = true ∨ keyLeB b a = true := by
  induction a generalizing b with
  | nil => simp [keyLeB]
  | cons x xs ih =>
    cases b with
    | nil => simp [keyLeB]
    | cons y ys =>
      by_cases hxy : x = y
      · subst hxy
        simpa [keyLeB] using ih ys
      · simp only [keyLeB, if_neg hxy, if_neg (Ne.symm hxy)]
        exact cellLeB_total x y

theorem keyLeB_trans {a b c : List Cell} (hab : keyLeB a b = true)
    (hbc : keyLeB b c = true) : keyLeB a c = true := by
  induction a generalizing b c with
  | nil => simp [keyLeB]
  | cons x xs ih =>
    cases b with
    | nil => simp [keyLeB] at hab
    | cons y ys =>
      cases c with
      | nil => simp [keyLeB] at hbc
      | cons z zs =>
        by_cases hxy : x = y <;> by_cases hyz : y = z
        · subst hxy; subst hyz
          simp only [keyLeB, if_pos rfl] at hab hbc ⊢
          exact ih hab hbc
        · subst hxy
          simp only [keyLeB, if_pos rfl, if_neg hyz] at hab hbc ⊢
          exact hbc
        · subst hyz
          simp only [keyLeB, if_pos rfl, if_neg hxy] at hab hbc ⊢
          exact hab
        · simp only [keyLeB, if_neg hxy, if_neg hyz] at hab hbc
          by_cases hxz : x = z
          · subst hxz
            exact absurd (cellLeB_antisymm hab hbc) hxy
          · simp only [keyLeB, if_neg hxz]
            exact cellLeB_trans hab hbc

theorem keyLeB_antisymm {a b : List Cell} (hab : keyLeB a b = true)
    (hba : keyLeB b a = true) : a = b := by
  induction a generalizing b with
  | nil =>
    cases b with
    | nil => rfl
    | cons y ys => simp [keyLeB] at hba
  | cons x xs ih =>
    cases b with
    | nil => simp [keyLeB] at hab
    | cons y ys =>
      by_cases hxy : x = y
      · subst hxy
        simp only [keyLeB, if_pos rfl] at hab hba
        exact congrArg _ (ih hab hba)
      · simp only [keyLeB, if_neg hxy, if_neg (Ne.symm hxy)] at hab hba
        exact absurd (cellLeB_antisymm hab hba) hxy

theorem keyLtB_of_le_ne {a b : List Cell} (hab : keyLeB a b = true) (hne : a ≠ b) :
    keyLtB a b = true := by
  induction a generalizing b with
  | nil =>
    cases b with
    | nil => exact absurd rfl hne
    | cons y ys => rfl
  | cons x xs ih =>
    cases b with
    | nil => simp [keyLeB] at hab
    | cons y ys =>
      by_cases hxy : x = y
      · subst hxy
        simp only [keyLeB, if_pos rfl] at hab
        simp only [keyLtB, if_pos rfl]
        exact ih hab (by intro h; exact hne (by rw [h]))
      · simp only [keyLeB, if_neg hxy] at hab
        simp only [keyLtB, if_neg hxy]
        exact hab

instance : IsTotal (List Cell) keyLe := ⟨fun a b => keyLeB_total a b⟩

instance : IsTrans (List Cell) keyLe := ⟨fun _ _ _ hab hbc => keyLeB_trans hab hbc⟩

theorem sortKeys_sorted (ks : List (List Cell)) : List.Sorted keyLe (sortKeys ks) :=
  List.sorted_insertionSort keyLe ks.dedup

theorem sortKeys_nodup (ks : List (List Cell)) : (sortKeys ks).Nodup :=
  ((List.perm_insertionSort keyLe ks.dedup).nodup_iff).mpr ks.nodup_dedup

theorem sortKeys_mem (ks : List (List Cell)) (k : List Cell) :
    k ∈ sortKeys ks ↔ k ∈ ks := by
  unfold sortKeys
  rw [List.mem_insertionSort, List.mem_dedup]

theorem sortKeys_chain (ks : List (List Cell)) :
    (sortKeys ks).Chain' keyLt := by
  have hs : (sortKeys ks).Pairwise keyLe := sortKeys_sorted ks
  have hn : (sortKeys ks).Pairwise (· ≠ ·) := sortKeys_nodup ks
  have : (sortKeys ks).Pairwise keyLt := by
    refine (hs.and hn).imp ?_
    rintro a b ⟨hle, hne⟩
    exact keyLtB_of_le_ne hle hne
  exact this.chain'

instance : IsTotal Val valLe := ⟨valLeB_total⟩

instance : IsTrans Val valLe := ⟨fun _ _ _ => valLeB_trans⟩

theorem hasCol_eq_isSome (t : Table) (name : String) :
    t.hasCol name = (t.colIdx name).isSome := by
  unfold Table.hasCol Table.colIdx
  exact (List.findIdx?_isSome).symm

theorem colIdx_spec (t : Table) (name : String) (i : ℕ) (h : t.colIdx name = some i) :
    ∃ hlt : i < t.cols.length, (t.cols[i]).1 = name := by
  unfold Table.colIdx at h
  obtain ⟨hlt, hp, _⟩ := List.findIdx?_eq_some_iff_getElem.mp h
  exact ⟨hlt, by simpa using hp⟩

theorem listSet_self {α : Type} (l : List α) (i : ℕ) (a : α) (h : l[i]? = some a) :
    l.set i a = l := by
  induction l generalizing i with
  | nil => simp at h
  | cons x xs ih =>
    cases i with
    | zero => simp at h; simp [List.set, h]
    | succ j => simp at h; simp [List.set, ih j h]

theorem rowSet_getD_self (r : List Cell) (i : ℕ) :
    r.set i (r.getD i none) = r := by
  by_cases h : i < r.length
  · have hd : r.getD i none = r[i] := List.getD_eq_getElem r none h
    rw [hd]
    exact listSet_self r i _ (List.getElem?_eq_getElem h)
  · exact List.set_eq_of_length_le (by omega)

theorem assign_eq (t : Table) (col : String) (dt : DType) (cells : List Cell) (i : ℕ)
    (h : t.colIdx col = some i) :
    t.assign col dt cells =
      { cols := t.cols.set i (col, dt),
        rows := List.zipWith (fun row c => row.set i c) t.rows cells } := by
  unfold Table.assign
  rw [h]

theorem colIdx_assign (t : Table) (col : String) (dt : DType) (cells : List Cell)
    (i : ℕ) (h : t.colIdx col = some i) :
    (t.assign col dt cells).colIdx col = some i := by
  rw [assign_eq t col dt cells i h]
  unfold Table.colIdx at h ⊢
  obtain ⟨hlt, hp, hmin⟩ := List.findIdx?_eq_some_iff_getElem.mp h
  refine List.findIdx?_eq_some_iff_getElem.mpr ?_
  refine ⟨by simpa using hlt, ?_, ?_⟩
  · simp [List.getElem_set_self]
  · intro j hji
    have := hmin j hji
    simpa [List.getElem_set_ne (Nat.ne_of_lt hji).symm] using this

theorem dtypeOf_assign (t : Table) (col : String) (dt : DType) (cells : List Cell)
    (i : ℕ) (h : t.colIdx col = some i) :
    (t.assign col dt cells).dtypeOf col = dt := by
  obtain ⟨hlt, _⟩ := colIdx_spec t col i h
  unfold Table.dtypeOf
  rw [colIdx_assign t col dt cells i h, assign_eq t col dt cells i h]
  show (((t.cols.set i (col, dt)).getD i ("", DType.object))).2 = dt
  rw [List.getD_eq_getElem (t.cols.set i (col, dt)) ("", DType.object)
    (by simpa using hlt), List.getElem_set_self]

theorem hasCol_assign (t : Table) (col : String) (dt : DType) (cells : List Cell)
    (i : ℕ) (h : t.colIdx col = some i) :
    (t.assign col dt cells).hasCol col = true := by
  rw [hasCol_eq_isSome, colIdx_assign t col dt cells i h]
  rfl

theorem col_of_colIdx (t : Table) (col : String) (i : ℕ) (h : t.colIdx col = some i) :
    t.col col = t.rows.map (fun row => row.getD i none) := by
  unfold Table.col
  rw [h]

theorem rowCell_of_colIdx (t : Table) (col : String) (i : ℕ) (h : t.colIdx col = some i)
    (row : List Cell) : rowCell t col row = row.getD i none := by
  unfold rowCell
  rw [h]

theorem assign_mapped_col (t : Table) (col : String) (dt : DType) (i : ℕ)
    (h : t.colIdx col = some i) (f : List Cell → Cell)
    (hf : ∀ r : List Cell, r.length ≤ i → f r = none) :
    (t.assign col dt (t.rows.map f)).col col = t.rows.map f := by
  have hidx2 := colIdx_assign t col dt (t.rows.map f) i h
  rw [col_of_colIdx _ col i hidx2, assign_eq t col dt (t.rows.map f) i h]
  show (List.zipWith (fun row c => row.set i c) t.rows (t.rows.map f)).map
      (fun row => row.getD i none) = t.rows.map f
  rw [List.zipWith_map_right, List.zipWith_same, List.map_map]
  refine List.map_congr_left ?_
  intro r _
  by_cases hr : i < r.length
  · simp only [Function.comp_apply]
    rw [List.getD_eq_getElem (r.set i (f r)) none (by simpa using hr),
      List.getElem_set_self]
  · simp only [Function.comp_apply]
    have hle : r.length ≤ i := by omega
    rw [List.set_eq_of_length_le hle, List.getD_eq_default r none hle, hf r hle]

theorem assign_self (t : Table) (col : String) (i : ℕ) (h : t.colIdx col = some i)
    (hdt : t.dtypeOf col = .datetime) :
    t.assign col .datetime (t.col col) = t := by
  obtain ⟨hlt, hname⟩ := colIdx_spec t col i h
  have hget : t.cols[i]? = some (col, .datetime) := by
    rw [List.getElem?_eq_getElem hlt]
    have hd2 : (t.cols[i]).2 = DType.datetime := by
      unfold Table.dtypeOf at hdt
      rw [h] at hdt
      simp only at hdt
      rwa [List.getD_eq_getElem t.cols ("", DType.object) hlt] at hdt
    have hpair : t.cols[i] = (col, DType.datetime) := by
      rcases hp : t.cols[i] with ⟨a, b⟩
      rw [hp] at hname hd2
      simp only at hname hd2
      simp [hname, hd2]
    rw [hpair]
  rw [assign_eq t col .datetime (t.col col) i h, col_of_colIdx t col i h]
  have hcols : t.cols.set i (col, .datetime) = t.cols := listSet_self _ _ _ hget
  have hrows : List.zipWith (fun row c => row.set i c) t.rows
      (t.rows.map (fun row => row.getD i none)) = t.rows := by
    rw [List.zipWith_map_right, List.zipWith_same]
    have hid : ∀ r ∈ t.rows, r.set i (r.getD i none) = id r :=
      fun r _ => rowSet_getD_self r i
    rw [List.map_congr_left hid, List.map_id]
  rw [hcols, hrows]

theorem filterRows_cols (t : Table) (p : List Cell → Bool) :
    (t.filterRows p).cols = t.cols := rfl

theorem colIdx_filterRows (t : Table) (p : List Cell → Bool) (col : String) :
    (t.filterRows p).colIdx col = t.colIdx col := rfl

theorem dtypeOf_filterRows (t : Table) (p : List Cell → Bool) (col : String) :
    (t.filterRows p).dtypeOf col = t.dtypeOf col := rfl

theorem hasCol_filterRows (t : Table) (p : List Cell → Bool) (col : String) :
    (t.filterRows p).hasCol col = t.hasCol col := rfl

theorem coerce_datetime_series_datetime (cells : List Cell) :
    coerce_datetime_series .datetime cells = cells := rfl

theorem betweenTs_true_iff (c : Cell) (a b : ℤ) :
    betweenTs c a b = true ↔ ∃ n, c = some (.vTs n) ∧ a ≤ n ∧ n ≤ b := by
  cases c with
  | none => simp [betweenTs]
  | some v => cases v <;> simp [betweenTs]

theorem hasCol_exists (t : Table) (col : String) (hc : t.hasCol col = true) :
    ∃ i, t.colIdx col = some i := by
  rw [hasCol_eq_isSome] at hc
  exact Option.isSome_iff_exists.mp hc

theorem applyTime_eq_found (t : Table) (spec : FilterSpec) (col : String)
    (hc : t.hasCol col = true) :
    applyTime t spec col =
      match seriesMin (coerce_datetime_series (t.dtypeOf col) (t.col col)),
          seriesMax (coerce_datetime_series (t.dtypeOf col) (t.col col)) with
      | some mn, some mx =>
          .ok ((t.assign col .datetime
              (coerce_datetime_series (t.dtypeOf col) (t.col col))).filterRows
            (fun row => betweenTs
              (rowCell (t.assign col .datetime
                (coerce_datetime_series (t.dtypeOf col) (t.col col))) col row)
              (spec.time_range.getD (mn, mx)).1 (spec.time_range.getD (mn, mx)).2))
      | _, _ =>
          .ok (t.assign col .datetime
            (coerce_datetime_series (t.dtypeOf col) (t.col col))) := by
  unfold applyTime
  rw [hc]
  rfl

theorem applyTime_eq_missing (t : Table) (spec : FilterSpec) (col : String)
    (hc : t.hasCol col = false) :
    applyTime t spec col = .error (.keyError col) := by
  unfold applyTime
  rw [hc]
  rfl

theorem col_assign_coerce (t : Table) (col : String) (i : ℕ)
    (hidx : t.colIdx col = some i) :
    (t.assign col .datetime (coerce_datetime_series (t.dtypeOf col) (t.col col))).col col
      = coerce_datetime_series (t.dtypeOf col) (t.col col) := by
  by_cases hdt : t.dtypeOf col = .datetime
  · rw [hdt, coerce_datetime_series_datetime, col_of_colIdx t col i hidx]
    exact assign_mapped_col t col .datetime i hidx (fun r => r.getD i none)
      (fun r hr => List.getD_eq_default r none hr)
  · have hsh : coerce_datetime_series (t.dtypeOf col) (t.col col)
        = t.rows.map (fun r => coerceCell (r.getD i none)) := by
      unfold coerce_datetime_series
      rw [if_neg hdt, col_of_colIdx t col i hidx]
      unfold to_datetime
      rw [List.map_map]
      rfl
    rw [hsh]
    exact assign_mapped_col t col .datetime i hidx (fun r => coerceCell (r.getD i none))
      (fun r hr => by
        show coerceCell (r.getD i none) = none
        rw [List.getD_eq_default r none hr]
        rfl)

theorem applyTime_stable (u : Table) (spec : FilterSpec) (col : String) (i : ℕ)
    (hidx : u.colIdx col = some i) (hdt : u.dtypeOf col = .datetime)
    (hkeep : ∀ mn mx, seriesMin (u.col col) = some mn → seriesMax (u.col col) = some mx →
      ∀ row ∈ u.rows, betweenTs (row.getD i none)
        (spec.time_range.getD (mn, mx)).1 (spec.time_range.getD (mn, mx)).2 = true) :
    applyTime u spec col = .ok u := by
  have hcu : u.hasCol col = true := by
    rw [hasCol_eq_isSome, hidx]; rfl
  rw [applyTime_eq_found u spec col hcu]
  rw [hdt, coerce_datetime_series_datetime, assign_self u col i hidx hdt]
  rcases hmin : seriesMin (u.col col) with _ | mn
  · rfl
  rcases hmax : seriesMax (u.col col) with _ | mx
  · rfl
  have hfil : u.filterRows (fun row => betweenTs (rowCell u col row)
      (spec.time_range.getD (mn, mx)).1 (spec.time_range.getD (mn, mx)).2) = u := by
    unfold Table.filterRows
    have : u.rows.filter (fun row => betweenTs (rowCell u col row)
        (spec.time_range.getD (mn, mx)).1 (spec.time_range.getD (mn, mx)).2) = u.rows := by
      refine List.filter_eq_self.mpr ?_
      intro row hrow
      rw [rowCell_of_colIdx u col i hidx row]
      exact hkeep mn mx hmin hmax row hrow
    rw [this]
  exact congrArg Except.ok hfil

theorem ts_bounds {cells : List Cell} {mn mx n : ℤ} (hmin : seriesMin cells = some mn)
    (hmax : seriesMax cells = some mx) (hmem : ∃ c ∈ cells, cellTs c = some n) :
    mn ≤ n ∧ n ≤ mx := by
  unfold seriesMin at hmin
  unfold seriesMax at hmax
  have hn : n ∈ cells.filterMap cellTs := List.mem_filterMap.mpr hmem
  constructor
  · exact (List.le_min?_iff (fun _ _ _ => le_min_iff) hmin).mp le_rfl n hn
  · exact (List.max?_le_iff (fun _ _ _ => max_le_iff) hmax).mp le_rfl n hn

theorem applyTime_idem (t : Table) (spec : FilterSpec) (col : String) (u : Table)
    (h : applyTime t spec col = .ok u) : applyTime u spec col = .ok u := by
  by_cases hc : t.hasCol col = true
  case neg =>
    rw [applyTime_eq_missing t spec col (by simpa using hc)] at h
    cases h
  obtain ⟨i, hidx⟩ := hasCol_exists t col hc
  rw [applyTime_eq_found t spec col hc] at h
  have hidx2 := colIdx_assign t col .datetime
    (coerce_datetime_series (t.dtypeOf col) (t.col col)) i hidx
  have hdt2 := dtypeOf_assign t col .datetime
    (coerce_datetime_series (t.dtypeOf col) (t.col col)) i hidx
  have hcol2 := col_assign_coerce t col i hidx
  split at h
  case _ mn mx hmn hmx =>
    injection h with h2
    subst h2
    refine applyTime_stable _ spec col i (by rw [colIdx_filterRows]; exact hidx2)
      (by rw [dtypeOf_filterRows]; exact hdt2) ?_
    intro mn2 mx2 hmin2 hmax2 row hrow
    have hrowf := hrow
    simp only [Table.filterRows] at hrowf
    obtain ⟨hr1, hp⟩ := List.mem_filter.mp hrowf
    rw [rowCell_of_colIdx _ col i hidx2 row] at hp
    obtain ⟨n, hcell, hge, hle⟩ := (betweenTs_true_iff _ _ _).mp hp
    have hidxF : ((t.assign col .datetime
        (coerce_datetime_series (t.dtypeOf col) (t.col col))).filterRows
        (fun row => betweenTs (rowCell (t.assign col .datetime
          (coerce_datetime_series (t.dtypeOf col) (t.col col))) col row)
          (spec.time_range.getD (mn, mx)).1 (spec.time_range.getD (mn, mx)).2)).colIdx col
        = some i := by
      rw [colIdx_filterRows]; exact hidx2
    have hmem : ∃ c ∈ ((t.assign col .datetime
        (coerce_datetime_series (t.dtypeOf col) (t.col col))).filterRows
        (fun row => betweenTs (rowCell (t.assign col .datetime
          (coerce_datetime_series (t.dtypeOf col) (t.col col))) col row)
          (spec.time_range.getD (mn, mx)).1 (spec.time_range.getD (mn, mx)).2)).col col,
        cellTs c = some n := by
      rw [col_of_colIdx _ col i hidxF]
      exact ⟨row.getD i none, List.mem_map.mpr ⟨row, hrow, rfl⟩, by rw [hcell]; rfl⟩
    obtain ⟨hb1, hb2⟩ := ts_bounds hmin2 hmax2 hmem
    rcases hr : spec.time_range with _ | ⟨a, b⟩
    · rw [hcell]
      simp [betweenTs, hb1, hb2]
    · rw [hr] at hp
      simp only [Option.getD_some] at hp ⊢
      rw [hcell] at hp ⊢
      exact hp
  case _ hne1 =>
    injection h with h2
    subst h2
    refine applyTime_stable _ spec col i hidx2 hdt2 ?_
    intro mn2 mx2 hmin2 hmax2 row hrow
    rw [hcol2] at hmin2 hmax2
    exact absurd hmin2 (by exact fun hh => hne1 mn2 mx2 hh hmax2)

theorem render_filters_no_title (t : Table) (spec : FilterSpec)
    (h : spec.title_column = none) :
    render_filters t spec =
      match spec.time_column with
      | none => .ok t
      | some col => applyTime t spec col := by
  unfold render_filters
  rw [h]
  rfl

/-- C4 counterexample: filtering is not idempotent. On the single-column
table `c = ["5", "x"]` with title filter `c` and chosen titles `{"5"}`, the
first pass keeps the row `"5"` by membership (only half the column parses
as a timestamp); on the second pass the surviving column parses entirely,
so the title filter switches to the time-range branch and coerces the
column, replacing `"5"` by the timestamp `5`. -/
theorem render_filters_idem_cx : ¬ C4_claim := by
  intro hcl
  have := hcl ⟨[("c", .object)], [[some (.vStr "5")], [some (.vStr "x")]]⟩
    ⟨some "c", [.vStr "5"], none, none, none⟩
  exact absurd this (by decide)

/-- C4 amended: filtering is idempotent whenever no title filter is active
(`title_column` is `"(none)"`); with an active title filter a second pass
can switch the membership branch to the time-range branch once the
filtered subset crosses the 80% datetime-parse threshold, and is then not
idempotent. -/
theorem render_filters_idem_no_title (t : Table) (spec : FilterSpec)
    (h : spec.title_column = none) :
    (render_filters t spec).bind (fun u => render_filters u spec)
      = render_filters t spec := by
  rw [render_filters_no_title t spec h]
  rcases htc : spec.time_column with _ | col
  · show (Except.ok t).bind (fun u => render_filters u spec) = Except.ok t
    show render_filters t spec = Except.ok t
    rw [render_filters_no_title t spec h, htc]
  · show (applyTime t spec col).bind (fun u => render_filters u spec)
      = applyTime t spec col
    cases hap : applyTime t spec col with
    | error e => rfl
    | ok u =>
        show render_filters u spec = Except.ok u
        rw [render_filters_no_title u spec h, htc]
        exact applyTime_idem t spec col u hap

/-- C4 witness: the amended idempotence applied to a concrete table with an
active time filter. -/
theorem render_filters_idem_no_title_witness :
    (FilterSpec.title_column ⟨none, [], none, some "t", none⟩ = none) ∧
    ((render_filters ⟨[("t", .object)], [[some (.vStr "1")], [some (.vStr "2")], [some (.vStr "x")]]⟩
        ⟨none, [], none, some "t", none⟩).bind
      (fun u => render_filters u ⟨none, [], none, some "t", none⟩)
      = render_filters ⟨[("t", .object)], [[some (.vStr "1")], [some (.vStr "2")], [some (.vStr "x")]]⟩
        ⟨none, [], none, some "t", none⟩) :=
  ⟨rfl, render_filters_idem_no_title _ _ rfl⟩

theorem applyTitle_eq_membership (t : Table) (spec : FilterSpec) (col : String)
    (hc : t.hasCol col = true)
    (hdt : ¬(t.dtypeOf col = .datetime ∨ is_datetime_like (t.col col) = true))
    (hv : spec.title_values ≠ []) :
    applyTitle t spec col = .ok (t.filterRows (fun row =>
      match rowCell t col row with
      | some v => spec.title_values.contains v
      | none => false)) := by
  unfold applyTitle
  rw [hc]
  show (if t.dtypeOf col = .datetime ∨ is_datetime_like (t.col col) = true then _ else _) = _
  rw [if_neg hdt, if_pos hv]

theorem applyTitle_eq_datetime (t : Table) (spec : FilterSpec) (col : String)
    (hc : t.hasCol col = true)
    (hdt : t.dtypeOf col = .datetime ∨ is_datetime_like (t.col col) = true) :
    applyTitle t spec col =
      match seriesMin (coerce_datetime_series (t.dtypeOf col) (t.col col)),
          seriesMax (coerce_datetime_series (t.dtypeOf col) (t.col col)) with
      | some mn, some mx =>
          .ok ((t.assign col .datetime
              (coerce_datetime_series (t.dtypeOf col) (t.col col))).filterRows
            (fun row => betweenTs
              (rowCell (t.assign col .datetime
                (coerce_datetime_series (t.dtypeOf col) (t.col col))) col row)
              (spec.title_range.getD (mn, mx)).1 (spec.title_range.getD (mn, mx)).2))
      | _, _ =>
          .ok (t.assign col .datetime
            (coerce_datetime_series (t.dtypeOf col) (t.col col))) := by
  unfold applyTitle
  rw [hc]
  show (if t.dtypeOf col = .datetime ∨ is_datetime_like (t.col col) = true then _ else _) = _
  rw [if_pos hdt]

theorem render_filters_title_only (t : Table) (spec : FilterSpec) (col : String)
    (h : spec.title_column = some col) (h2 : spec.time_column = none) :
    render_filters t spec = applyTitle t spec col := by
  unfold render_filters
  rw [h, h2]
  show Except.bind (applyTitle t spec col) (fun t1 => Except.ok t1) = applyTitle t spec col
  cases h3 : applyTitle t spec col with
  | error e => rfl
  | ok v => rfl

theorem seriesMax_exists_of_min {cells : List Cell} {mn : ℤ}
    (hmn : seriesMin cells = some mn) : ∃ mx, seriesMax cells = some mx := by
  unfold seriesMin at hmn
  unfold seriesMax
  have hne : cells.filterMap cellTs ≠ [] := by
    intro hh
    rw [hh] at hmn
    simp at hmn
  rcases hmx : (cells.filterMap cellTs).max? with _ | mx
  · exact absurd (List.max?_eq_none_iff.mp hmx) hne
  · exact ⟨mx, rfl⟩

/-- C10 counterexample: a datetime-dtyped column whose values are all
missing enters the datetime branch, but both bounds are `NaT`, so the code
only warns and keeps every row — the claimed between-interval test would
have dropped the all-missing row. -/
theorem title_time_filter_cx : ¬ C10_claim := by
  intro hcl
  have := hcl ⟨[("c", .datetime)], [[none]]⟩ ⟨some "c", [], some (0, 1), none, none⟩ "c"
    rfl (by decide) (by decide) rfl
  exact absurd this (by decide)

/-- C10 amended: when additionally at least one value of the column coerces
to a timestamp, the title filter does behave as a time-range filter — the
column is replaced by its coerced values and rows are kept by the inclusive
between test over the chosen range (defaulting to the full data span) — and
the chosen title values play no role. When every value is missing (possible
only through the datetime-dtype disjunct) the column is still replaced but
no range test is applied. -/
theorem title_time_filter_thm (t : Table) (spec : FilterSpec) (col : String)
    (hcol : spec.title_column = some col) (hc : t.hasCol col = true)
    (hdt : t.dtypeOf col = .datetime ∨ is_datetime_like (t.col col) = true)
    (hsucc : (seriesMin (coerce_datetime_series (t.dtypeOf col) (t.col col))).isSome = true)
    (htime : spec.time_column = none) :
    render_filters t spec = .ok (titleTimeFilter t col spec.title_range) ∧
    ∀ vs, render_filters t { spec with title_values := vs } = render_filters t spec := by
  obtain ⟨mn, hmn⟩ := Option.isSome_iff_exists.mp hsucc
  obtain ⟨mx, hmx⟩ := seriesMax_exists_of_min hmn
  constructor
  · rw [render_filters_title_only t spec col hcol htime,
      applyTitle_eq_datetime t spec col hc hdt, hmn, hmx]
    have hT : titleTimeFilter t col spec.title_range =
        (t.assign col .datetime
          (coerce_datetime_series (t.dtypeOf col) (t.col col))).filterRows
          (fun row => betweenTs
            (rowCell (t.assign col .datetime
              (coerce_datetime_series (t.dtypeOf col) (t.col col))) col row)
            (spec.title_range.getD (mn, mx)).1 (spec.title_range.getD (mn, mx)).2) := by
      simp only [titleTimeFilter]
      rw [hmn, hmx]
      simp only [Option.getD_some]
    rw [hT]
  · intro vs
    rw [render_filters_title_only t { spec with title_values := vs } col hcol htime,
      render_filters_title_only t spec col hcol htime,
      applyTitle_eq_datetime t { spec with title_values := vs } col hc hdt,
      applyTitle_eq_datetime t spec col hc hdt]

/-- C10 witness: the amended time-range behaviour of the title filter on a
concrete parseable column. -/
theorem title_time_filter_thm_witness :
    ((FilterSpec.title_column ⟨some "c", [.vStr "9"], some (1, 2), none, none⟩ = some "c") ∧
      (Table.hasCol ⟨[("c", .object)], [[some (.vStr "1")], [some (.vStr "3")]]⟩ "c" = true) ∧
      ((Table.dtypeOf ⟨[("c", .object)], [[some (.vStr "1")], [some (.vStr "3")]]⟩ "c" = .datetime ∨
        is_datetime_like (Table.col ⟨[("c", .object)], [[some (.vStr "1")], [some (.vStr "3")]]⟩ "c") = true)) ∧
      ((seriesMin (coerce_datetime_series
        (Table.dtypeOf ⟨[("c", .object)], [[some (.vStr "1")], [some (.vStr "3")]]⟩ "c")
        (Table.col ⟨[("c", .object)], [[some (.vStr "1")], [some (.vStr "3")]]⟩ "c"))).isSome = true)) ∧
    (render_filters ⟨[("c", .object)], [[some (.vStr "1")], [some (.vStr "3")]]⟩
        ⟨some "c", [.vStr "9"], some (1, 2), none, none⟩ =
      .ok (titleTimeFilter ⟨[("c", .object)], [[some (.vStr "1")], [some (.vStr "3")]]⟩ "c"
        (some (1, 2))) ∧
      ∀ vs, render_filters ⟨[("c", .object)], [[some (.vStr "1")], [some (.vStr "3")]]⟩
          { (⟨some "c", [.vStr "9"], some (1, 2), none, none⟩ : FilterSpec) with title_values := vs }
        = render_filters ⟨[("c", .object)], [[some (.vStr "1")], [some (.vStr "3")]]⟩
          ⟨some "c", [.vStr "9"], some (1, 2), none, none⟩) :=
  ⟨⟨rfl, by decide, by decide, by decide⟩,
    title_time_filter_thm _ _ "c" rfl (by decide) (by decide) (by decide) rfl⟩

/-- C7 counterexample: a numeric title column never reaches the membership
filter at all. On the column `c = [5, 7]` every number coerces to a
timestamp, so the code takes the time-range branch, coerces the column and
keeps both rows, while the claimed string-membership filter with chosen
titles `{5}` would keep exactly the row `5` with its value unchanged. -/
theorem title_membership_cx : ¬ C7_claim := by
  intro hcl
  have := hcl ⟨[("c", .numeric)], [[some (.vNum 5)], [some (.vNum 7)]]⟩
    ⟨some "c", [.vNum 5], none, none, none⟩ "c" rfl (by decide) (by decide) rfl
  exact absurd this (by decide)

/-- C7 amended: the membership branch only runs when the column is neither
datetime-dtyped nor datetime-like (below the 80% parse threshold); it then
keeps exactly the rows whose native value is a member of the chosen title
values — the comparison is native-value equality, with no string
conversion, and numeric columns are instead diverted to the time-range
branch. -/
theorem title_membership_thm (t : Table) (spec : FilterSpec) (col : String)
    (hcol : spec.title_column = some col) (hc : t.hasCol col = true)
    (hdt : ¬(t.dtypeOf col = .datetime ∨ is_datetime_like (t.col col) = true))
    (hv : spec.title_values ≠ []) (htime : spec.time_column = none) :
    render_filters t spec = .ok (t.filterRows (fun row =>
      match rowCell t col row with
      | some v => spec.title_values.contains v
      | none => false)) := by
  rw [render_filters_title_only t spec col hcol htime,
    applyTitle_eq_membership t spec col hc hdt hv]

/-- C7 witness: the amended membership filtering on a concrete categorical
column. -/
theorem title_membership_thm_witness :
    ((FilterSpec.title_column ⟨some "c", [.vStr "a"], none, none, none⟩ = some "c") ∧
      (Table.hasCol ⟨[("c", .object)], [[some (.vStr "a")], [some (.vStr "b")]]⟩ "c" = true) ∧
      (¬(Table.dtypeOf ⟨[("c", .object)], [[some (.vStr "a")], [some (.vStr "b")]]⟩ "c" = .datetime ∨
        is_datetime_like (Table.col ⟨[("c", .object)], [[some (.vStr "a")], [some (.vStr "b")]]⟩ "c") = true)) ∧
      (FilterSpec.title_values ⟨some "c", [.vStr "a"], none, none, none⟩ ≠ [])) ∧
    render_filters ⟨[("c", .object)], [[some (.vStr "a")], [some (.vStr "b")]]⟩
        ⟨some "c", [.vStr "a"], none, none, none⟩ =
      .ok (Table.filterRows ⟨[("c", .object)], [[some (.vStr "a")], [some (.vStr "b")]]⟩
        (fun row =>
          match rowCell ⟨[("c", .object)], [[some (.vStr "a")], [some (.vStr "b")]]⟩ "c" row with
          | some v => List.contains [Val.vStr "a"] v
          | none => false)) :=
  ⟨⟨rfl, by decide, by decide, by decide⟩,
    title_membership_thm _ _ "c" rfl (by decide) (by decide) (by decide) rfl⟩

/-- C6 counterexample: the source neither stringifies nor sorts
lexicographically — it sorts the native values. On the numeric column
`[10, 2]` the code returns `[2, 10]` (numeric order), while lexicographic
string sorting would return `["10", "2"]`. -/
theorem safe_unique_cx : ¬ C6_claim := by
  intro h
  exact absurd (h [some (.vNum 10), some (.vNum 2)]) (by decide)

/-- C6 amended: `_safe_unique` returns the distinct non-missing values of
the column in their native representation, sorted ascending by the native
value order (numbers numerically, strings lexicographically), with no
duplicates and with missing values excluded. -/
theorem safe_unique_thm (cells : List Cell) :
    List.Sorted valLe (safe_unique cells) ∧ (safe_unique cells).Nodup ∧
    ∀ v : Val, (v ∈ safe_unique cells ↔ some v ∈ cells) := by
  refine ⟨List.sorted_insertionSort valLe _, ?_, ?_⟩
  · exact ((List.perm_insertionSort valLe _).nodup_iff).mpr (cells.filterMap id).nodup_dedup
  · intro v
    unfold safe_unique
    rw [List.mem_insertionSort, List.mem_dedup, List.mem_filterMap]
    constructor
    · rintro ⟨c, hc, hcv⟩
      cases hcv
      exact hc
    · intro h
      exact ⟨some v, h, rfl⟩

/-- C5: for every chart configuration, an empty aggregated table makes
`build_figure` return the placeholder figure — hidden axes, the explanatory
title, the configured height — and no exception is raised. -/
theorem build_figure_empty (chart_data : Table) (config : ChartConfig)
    (h : chart_data.isEmptyTable = true) :
    build_figure chart_data config =
      .ok (.placeholder "No data after filtering" false false config.layout_height) := by
  unfold build_figure
  rw [h]
  rfl

/-- C5 witness: the placeholder on a concrete empty table. -/
theorem build_figure_empty_witness :
    (Table.isEmptyTable ⟨[("a", .object), ("b", .numeric)], []⟩ = true) ∧
    build_figure ⟨[("a", .object), ("b", .numeric)], []⟩
        (to_config "Bar" "a" "b" "Sum" "(none)" "(none)" "(none)" "(none)" "(none)" 520) =
      .ok (.placeholder "No data after filtering" false false 520) :=
  ⟨by decide, build_figure_empty _ _ (by decide)⟩

/-- C2 counterexample: `to_config` performs no validation at all — it
happily constructs a configuration with the unrecognized chart type
`"Bogus"` and the out-of-range height `9999`, and no error value exists
anywhere in the builder. -/
theorem to_config_cx : ¬ C2_claim := by
  intro h
  exact absurd (h "Bogus" "x" "y" "Sum" "(none)" "(none)" "(none)" "(none)" "(none)" 9999)
    (by decide)

/-- C2 amended: `to_config` validates nothing and can reject nothing — for
every raw input, including unrecognized chart types, out-of-range heights
and arbitrary column names, it returns the `ChartConfig` whose fields are
verbatim its arguments. -/
theorem to_config_thm (ct x y agg cd ls ld bp bf : String) (h : ℤ) :
    to_config ct x y agg cd ls ld bp bf h =
      ⟨ct, x, y, agg, cd, ls, ld, bp, bf, h⟩ := rfl

/-- C8 counterexample: the default configuration represents every absent
optional dimension by the sentinel string `"(none)"`. -/
theorem sentinel_cx : ¬ C8_claim := by
  intro h
  exact absurd (h ["a"] ["b"] _ rfl).1 (fun hne => hne rfl)

/-- C8 amended: absence is the sentinel string — the dimension fields are
plain strings, `default_config` sets all five optional dimensions to
`"(none)"` (with chart type `Line`, raw rows and height 480), and
`to_config` passes the sentinel through unchanged. -/
theorem sentinel_thm (c n : String) (cs ns : List String)
    (ct x y agg : String) (h : ℤ) :
    default_config (c :: cs) (n :: ns) =
      .ok ⟨"Line", c, n, "None (raw rows)", "(none)", "(none)", "(none)", "(none)",
        "(none)", 480⟩ ∧
    (to_config ct x y agg "(none)" "(none)" "(none)" "(none)" "(none)" h).color_dimension
      = "(none)" ∧
    (to_config ct x y agg "(none)" "(none)" "(none)" "(none)" "(none)" h).line_symbol
      = "(none)" ∧
    (to_config ct x y agg "(none)" "(none)" "(none)" "(none)" "(none)" h).line_dash
      = "(none)" ∧
    (to_config ct x y agg "(none)" "(none)" "(none)" "(none)" "(none)" h).bar_pattern
      = "(none)" ∧
    (to_config ct x y agg "(none)" "(none)" "(none)" "(none)" "(none)" h).bar_facet
      = "(none)" :=
  ⟨rfl, rfl, rfl, rfl, rfl, rfl⟩

/-- C9: every payload `parse_contents` returns has exactly one of
`dataframe` and `error` present; empty contents, a missing comma separator
and a CSV parse failure produce error payloads with `dataframe` absent, and
a successful parse produces the table with `error` absent. -/
theorem parse_contents_thm (contents : String) (filename : Option String)
    (p : CsvPayload) (h : parse_contents contents filename = .ok p) :
    ((p.dataframe = none ∧ p.error ≠ none) ∨ (p.dataframe ≠ none ∧ p.error = none)) ∧
    (contents = "" → p = ⟨none, some "No file contents provided."⟩) ∧
    (contents ≠ "" → splitFirstComma contents.data = none →
      p = ⟨none, some "Invalid upload payload."⟩) ∧
    (∀ pre body, splitFirstComma contents.data = some (pre, body) →
      ∀ d, b64decode (String.mk body) = .ok d →
        (∀ e, read_csv d = .error e →
          p = ⟨none, some ("Unable to read " ++ filename.getD "CSV" ++ ": " ++ e)⟩) ∧
        (∀ df, read_csv d = .ok df → p = ⟨some df, none⟩)) := by
  unfold parse_contents at h
  by_cases h0 : contents = ""
  · rw [if_pos h0] at h
    have h2 := Except.ok.inj h
    subst h2
    refine ⟨Or.inl ⟨rfl, by simp⟩, fun _ => rfl, fun hne _ => absurd h0 hne, ?_⟩
    intro pre body hsp
    subst h0
    simp [splitFirstComma] at hsp
  · rw [if_neg h0] at h
    split at h
    · rename_i heq
      have h2 := Except.ok.inj h
      subst h2
      refine ⟨Or.inl ⟨rfl, by simp⟩, fun hc => absurd hc h0, fun _ _ => rfl, ?_⟩
      intro pre body hsp2
      rw [heq] at hsp2
      cases hsp2
    · rename_i fst content heq
      split at h
      · rename_i e heq2
        cases h
      · rename_i d heq2
        split at h
        · rename_i exc heq3
          have h2 := Except.ok.inj h
          subst h2
          refine ⟨Or.inl ⟨rfl, by simp⟩, fun hc => absurd hc h0, ?_, ?_⟩
          · intro _ hn
            rw [heq] at hn
            cases hn
          intro pre body hsp2 d2 hb2
          rw [heq] at hsp2
          injection hsp2 with hsp3
          injection hsp3 with hpre hbody
          subst hbody
          rw [heq2] at hb2
          have hd := Except.ok.inj hb2
          subst hd
          constructor
          · intro e he
            rw [heq3] at he
            injection he with he2
            subst he2
            rfl
          · intro df hdf
            rw [heq3] at hdf
            cases hdf
        · rename_i df heq3
          have h2 := Except.ok.inj h
          subst h2
          refine ⟨Or.inr ⟨by simp, rfl⟩, fun hc => absurd hc h0, ?_, ?_⟩
          · intro _ hn
            rw [heq] at hn
            cases hn
          intro pre body hsp2 d2 hb2
          rw [heq] at hsp2
          injection hsp2 with hsp3
          injection hsp3 with hpre hbody
          subst hbody
          rw [heq2] at hb2
          have hd := Except.ok.inj hb2
          subst hd
          constructor
          · intro e he
            rw [heq3] at he
            cases he
          · intro df2 hdf
            rw [heq3] at hdf
            injection hdf with hdf2
            subst hdf2
            rfl

/-- C9 witness: the exactly-one-of invariant and the error clauses applied
to the empty-contents payload. -/
theorem parse_contents_thm_witness :
    ((CsvPayload.dataframe ⟨none, some "No file contents provided."⟩ = none ∧
        CsvPayload.error ⟨none, some "No file contents provided."⟩ ≠ none) ∨
      (CsvPayload.dataframe ⟨none, some "No file contents provided."⟩ ≠ none ∧
        CsvPayload.error ⟨none, some "No file contents provided."⟩ = none)) ∧
    (("" : String) = "" → (⟨none, some "No file contents provided."⟩ : CsvPayload)
      = ⟨none, some "No file contents provided."⟩) ∧
    (("" : String) ≠ "" → splitFirstComma ("" : String).data = none →
      (⟨none, some "No file contents provided."⟩ : CsvPayload)
        = ⟨none, some "Invalid upload payload."⟩) ∧
    (∀ pre body, splitFirstComma ("" : String).data = some (pre, body) →
      ∀ d, b64decode (String.mk body) = .ok d →
        (∀ e, read_csv d = .error e →
          (⟨none, some "No file contents provided."⟩ : CsvPayload)
            = ⟨none, some ("Unable to read " ++ (none : Option String).getD "CSV" ++ ": " ++ e)⟩) ∧
        (∀ df, read_csv d = .ok df →
          (⟨none, some "No file contents provided."⟩ : CsvPayload) = ⟨some df, none⟩)) :=
  parse_contents_thm "" none ⟨none, some "No file contents provided."⟩ (by decide)

theorem lookup_some_none (a : String)
    (h : AGGREGATIONS.lookup a = some none) : a = "None (raw rows)" := by
  simp only [AGGREGATIONS, List.lookup] at h
  cases hb1 : a == "None (raw rows)"
  case true => exact eq_of_beq hb1
  case false =>
  rw [hb1] at h
  cases hb2 : a == "Count"
  case true => rw [hb2] at h; simp at h
  case false =>
  rw [hb2] at h
  cases hb3 : a == "Sum"
  case true => rw [hb3] at h; simp at h
  case false =>
  rw [hb3] at h
  cases hb4 : a == "Mean"
  case true => rw [hb4] at h; simp at h
  case false =>
  rw [hb4] at h
  cases hb5 : a == "Min"
  case true => rw [hb5] at h; simp at h
  case false =>
  rw [hb5] at h
  cases hb6 : a == "Max"
  case true => rw [hb6] at h; simp at h
  case false =>
  rw [hb6] at h
  cases h

/-- C3 counterexample: there is no `ConfigError` anywhere in the code — an
unrecognized aggregation makes `AGGREGATIONS[aggregation]` raise a plain
`KeyError`, as witnessed on a concrete table and the aggregation
`"Bogus"`. -/
theorem build_chart_data_error_cx : ¬ C3_claim := by
  intro hcl
  obtain ⟨-, h2⟩ := hcl ⟨[("x", .numeric), ("y", .numeric)], []⟩
    ⟨"Line", "x", "y", "Bogus", "(none)", "(none)", "(none)", "(none)", "(none)", 480⟩
  obtain ⟨msg, hmsg⟩ := h2 (.keyError "Bogus") (by decide)
  cases hmsg

/-- C3 amended: aggregation fails — always with a plain `KeyError` or a
`TypeError`, never a `ConfigError` (no such class exists in the code) —
exactly when the aggregation is not one of the six recognized values
(`KeyError` from the dict lookup), or it is one of Count/Sum/Mean/Min/Max
and `y_axis` or some grouping-key column is absent (`KeyError` from
pandas), or the columns are present but the aggregation function is `mean`
over an object-dtyped `y_axis` or `sum` over a datetime-dtyped `y_axis`
(`TypeError` from pandas's `.agg`); with aggregation `"None (raw rows)"`
the table is returned as a copy without any column check. The two extra
hypotheses confine the statement to the reachable configurations whose
grouping keys are pairwise distinct and do not contain `y_axis`, the
domain on which this embedding of `DataFrame.groupby` is faithful. -/
theorem build_chart_data_error_thm (t : Table) (cfg : ChartConfig)
    (hnd : (groupersOf cfg).Nodup) (hyni : cfg.y_axis ∉ groupersOf cfg) :
    ((∃ e, build_chart_data t cfg = .error e) ↔
      (AGGREGATIONS.lookup cfg.aggregation = none ∨
        (cfg.aggregation ≠ "None (raw rows)" ∧
          (t.hasCol cfg.y_axis = false ∨
            (∃ g ∈ groupersOf cfg, t.hasCol g = false) ∨
            (∃ f, AGGREGATIONS.lookup cfg.aggregation = some (some f) ∧
              ((f = "mean" ∧ t.dtypeOf cfg.y_axis = .object) ∨
                (f = "sum" ∧ t.dtypeOf cfg.y_axis = .datetime))))))) ∧
    (∀ e, build_chart_data t cfg = .error e →
      (∃ k, e = .keyError k) ∨ (∃ m, e = .typeError m)) := by
  by_cases ha : cfg.aggregation = "None (raw rows)"
  · have hb : build_chart_data t cfg = .ok t := by
      unfold build_chart_data
      rw [if_pos ha]
    refine ⟨⟨?_, ?_⟩, ?_⟩
    · rintro ⟨e, he⟩
      rw [hb] at he
      cases he
    · rintro (hl | ⟨hne, _⟩)
      · rw [ha] at hl
        exact absurd hl (by decide)
      · exact absurd ha hne
    · intro e he
      rw [hb] at he
      cases he
  · cases hl : AGGREGATIONS.lookup cfg.aggregation with
    | none =>
        have hb : build_chart_data t cfg = .error (.keyError cfg.aggregation) := by
          simp only [build_chart_data, if_neg ha, hl]
        refine ⟨⟨fun _ => Or.inl rfl, fun _ => ⟨_, hb⟩⟩, ?_⟩
        intro e he
        rw [hb] at he
        injection he with he2
        exact Or.inl ⟨cfg.aggregation, he2.symm⟩
    | some of =>
        cases of with
        | none => exact absurd (lookup_some_none cfg.aggregation hl) ha
        | some f =>
            cases hg : (groupersOf cfg).find? (fun g => !(t.hasCol g)) with
            | some g =>
                have hb : build_chart_data t cfg = .error (.keyError g) := by
                  simp only [build_chart_data, if_neg ha, hl, hg]
                have hmem := List.mem_of_find?_eq_some hg
                have hfalse : t.hasCol g = false := by
                  have := List.find?_some hg
                  simpa using this
                refine ⟨⟨fun _ => Or.inr ⟨ha, Or.inr (Or.inl ⟨g, hmem, hfalse⟩)⟩,
                  fun _ => ⟨_, hb⟩⟩, ?_⟩
                intro e he
                rw [hb] at he
                injection he with he2
                exact Or.inl ⟨g, he2.symm⟩
            | none =>
                have hgall : ∀ x ∈ groupersOf cfg, t.hasCol x = true := by
                  intro x hx
                  have := List.find?_eq_none.mp hg x hx
                  simpa using this
                by_cases hy : t.hasCol cfg.y_axis = true
                · by_cases hcond : (f = "mean" ∧ t.dtypeOf cfg.y_axis = .object) ∨
                      (f = "sum" ∧ t.dtypeOf cfg.y_axis = .datetime)
                  · have hb : build_chart_data t cfg
                        = .error (.typeError "agg function failed") := by
                      simp only [build_chart_data, if_neg ha, hl, hg, hy, Bool.not_true,
                        Bool.false_eq_true, if_false, if_pos hcond]
                    refine ⟨⟨fun _ => Or.inr ⟨ha, Or.inr (Or.inr ⟨f, rfl, hcond⟩)⟩,
                      fun _ => ⟨_, hb⟩⟩, ?_⟩
                    intro e he
                    rw [hb] at he
                    injection he with he2
                    exact Or.inr ⟨"agg function failed", he2.symm⟩
                  · have hb : ∃ out, build_chart_data t cfg = .ok out := by
                      simp only [build_chart_data, if_neg ha, hl, hg, hy, Bool.not_true,
                        Bool.false_eq_true, if_false, if_neg hcond]
                      exact ⟨_, rfl⟩
                    obtain ⟨out, hb⟩ := hb
                    refine ⟨⟨?_, ?_⟩, ?_⟩
                    · rintro ⟨e, he⟩
                      rw [hb] at he
                      cases he
                    · rintro (hlf | ⟨-, (hyf | ⟨g, hgm, hgf⟩ | ⟨f2, hf2, hbad⟩)⟩)
                      · cases hlf
                      · rw [hy] at hyf
                        cases hyf
                      · rw [hgall g hgm] at hgf
                        cases hgf
                      · injection hf2 with h1
                        injection h1 with h2
                        subst h2
                        exact absurd hbad hcond
                    · intro e he
                      rw [hb] at he
                      cases he
                · have hyf : t.hasCol cfg.y_axis = false := by
                    simpa using hy
                  have hb : build_chart_data t cfg = .error (.keyError cfg.y_axis) := by
                    simp only [build_chart_data, if_neg ha, hl, hg, hyf, Bool.not_false,
                      if_true]
                  refine ⟨⟨fun _ => Or.inr ⟨ha, Or.inl hyf⟩, fun _ => ⟨_, hb⟩⟩, ?_⟩
                  intro e he
                  rw [hb] at he
                  injection he with he2
                  exact Or.inl ⟨cfg.y_axis, he2.symm⟩

/-- C3 witness: the amended error characterization applied to a concrete
table and the unrecognized aggregation `"Bogus"`. -/
theorem build_chart_data_error_thm_witness :
    ((groupersOf ⟨"Line", "x", "y", "Bogus", "(none)", "(none)", "(none)", "(none)",
        "(none)", 480⟩).Nodup ∧
      ("y" : String) ∉ groupersOf ⟨"Line", "x", "y", "Bogus", "(none)", "(none)",
        "(none)", "(none)", "(none)", 480⟩) ∧
    ((∃ e, build_chart_data ⟨[("x", .numeric), ("y", .numeric)], []⟩
        ⟨"Line", "x", "y", "Bogus", "(none)", "(none)", "(none)", "(none)", "(none)", 480⟩
        = .error e) ↔
      (AGGREGATIONS.lookup "Bogus" = none ∨
        (("Bogus" : String) ≠ "None (raw rows)" ∧
          (Table.hasCol ⟨[("x", .numeric), ("y", .numeric)], []⟩ "y" = false ∨
            (∃ g ∈ groupersOf ⟨"Line", "x", "y", "Bogus", "(none)", "(none)", "(none)",
              "(none)", "(none)", 480⟩,
              Table.hasCol ⟨[("x", .numeric), ("y", .numeric)], []⟩ g = false) ∨
            (∃ f, AGGREGATIONS.lookup "Bogus" = some (some f) ∧
              ((f = "mean" ∧
                  Table.dtypeOf ⟨[("x", .numeric), ("y", .numeric)], []⟩ "y" = .object) ∨
                (f = "sum" ∧
                  Table.dtypeOf ⟨[("x", .numeric), ("y", .numeric)], []⟩ "y"
                    = .datetime))))))) ∧
    (∀ e, build_chart_data ⟨[("x", .numeric), ("y", .numeric)], []⟩
        ⟨"Line", "x", "y", "Bogus", "(none)", "(none)", "(none)", "(none)", "(none)", 480⟩
        = .error e → (∃ k, e = .keyError k) ∨ (∃ m, e = .typeError m)) :=
  ⟨⟨by decide, by decide⟩,
    build_chart_data_error_thm _ _ (by decide) (by decide)⟩

theorem build_chart_data_eq_ok (t : Table) (cfg : ChartConfig) (f : String)
    (hne : cfg.aggregation ≠ "None (raw rows)")
    (hlk : AGGREGATIONS.lookup cfg.aggregation = some (some f))
    (hgnone : (groupersOf cfg).find? (fun g => !(t.hasCol g)) = none)
    (hy : t.hasCol cfg.y_axis = true)
    (hnc : ¬ ((f = "mean" ∧ t.dtypeOf cfg.y_axis = .object) ∨
      (f = "sum" ∧ t.dtypeOf cfg.y_axis = .datetime))) :
    build_chart_data t cfg = .ok
      { cols := (groupersOf cfg).map (fun g => (g, t.dtypeOf g))
          ++ [(cfg.y_axis, t.dtypeOf cfg.y_axis)],
        rows := (sortKeys (t.rows.map (fun row =>
            (groupersOf cfg).map (fun g => rowCell t g row)))).map (fun k =>
          k ++ [aggFn f (t.dtypeOf cfg.y_axis) (t.rows.filterMap (fun row =>
            if (groupersOf cfg).map (fun g => rowCell t g row) = k
            then some (rowCell t cfg.y_axis row) else none))]) } := by
  simp only [build_chart_data, if_neg hne, hlk, hgnone, hy, Bool.not_true,
    Bool.false_eq_true, if_false, if_neg hnc]

/-- C1: for Count/Sum/Mean/Min/Max aggregation over a table containing the
referenced columns, the grouping-key list is exactly `x_axis`, then
`color_dimension` when present, then the Line dimensions (symbol, dash) or
the Bar dimensions (pattern, facet) — Pie and Heatmap add nothing — and the
output has one row per distinct key tuple, sorted ascending in the
lexicographic key order. The numeric-dtype hypothesis on `y_axis` matches
the claim's own data model (`y_axis : NumericColumnName`) and rules out the
two combinations on which pandas's `.agg` raises `TypeError` (`mean` over
an object column, `sum` over a datetime column); the distinctness
hypotheses confine the statement to configurations whose grouping keys are
pairwise distinct and do not contain `y_axis`, the domain on which this
embedding of `DataFrame.groupby` is faithful. -/
theorem build_chart_data_grouping (t : Table) (cfg : ChartConfig)
    (hagg : cfg.aggregation ∈ (["Count", "Sum", "Mean", "Min", "Max"] : List String))
    (hg : ∀ g ∈ groupersOf cfg, t.hasCol g = true)
    (hy : t.hasCol cfg.y_axis = true)
    (hydt : t.dtypeOf cfg.y_axis = .numeric)
    (hnd : (groupersOf cfg).Nodup)
    (hyni : cfg.y_axis ∉ groupersOf cfg) :
    C1_prop t cfg := by
  have hne : cfg.aggregation ≠ "None (raw rows)" := by
    intro hcon
    rw [hcon] at hagg
    exact absurd hagg (by decide)
  have hlk : ∃ f, AGGREGATIONS.lookup cfg.aggregation = some (some f) := by
    simp only [List.mem_cons, List.not_mem_nil, or_false] at hagg
    rcases hagg with h | h | h | h | h <;> rw [h] <;> exact ⟨_, rfl⟩
  obtain ⟨f, hlk⟩ := hlk
  have hgnone : (groupersOf cfg).find? (fun g => !(t.hasCol g)) = none :=
    List.find?_eq_none.mpr (fun g hgm => by rw [hg g hgm]; simp)
  have hnc : ¬ ((f = "mean" ∧ t.dtypeOf cfg.y_axis = .object) ∨
      (f = "sum" ∧ t.dtypeOf cfg.y_axis = .datetime)) := by
    rw [hydt]
    rintro (⟨-, h⟩ | ⟨-, h⟩) <;> cases h
  refine ⟨_, build_chart_data_eq_ok t cfg f hne hlk hgnone hy hnc, rfl, ?_, ?_, ?_⟩
  · show ((groupersOf cfg).map (fun g => (g, t.dtypeOf g))
        ++ [(cfg.y_axis, t.dtypeOf cfg.y_axis)]).map Prod.fst
      = groupersOf cfg ++ [cfg.y_axis]
    rw [List.map_append, List.map_map]
    have h1 : (groupersOf cfg).map (Prod.fst ∘ fun g => (g, t.dtypeOf g))
        = (groupersOf cfg).map id := List.map_congr_left (fun g _ => rfl)
    rw [h1, List.map_id]
    rfl
  all_goals
    have hrows : ((sortKeys (t.rows.map (fun row =>
          (groupersOf cfg).map (fun g => rowCell t g row)))).map (fun k =>
            k ++ [aggFn f (t.dtypeOf cfg.y_axis) (t.rows.filterMap (fun row =>
              if (groupersOf cfg).map (fun g => rowCell t g row) = k
              then some (rowCell t cfg.y_axis row) else none))])).map
          (fun r => r.take (groupersOf cfg).length)
        = sortKeys (t.rows.map (fun row =>
            (groupersOf cfg).map (fun g => rowCell t g row))) := by
      rw [List.map_map]
      have hid : ∀ k ∈ sortKeys (t.rows.map (fun row =>
          (groupersOf cfg).map (fun g => rowCell t g row))),
          ((fun r => r.take (groupersOf cfg).length) ∘ (fun k =>
            k ++ [aggFn f (t.dtypeOf cfg.y_axis) (t.rows.filterMap (fun row =>
              if (groupersOf cfg).map (fun g => rowCell t g row) = k
              then some (rowCell t cfg.y_axis row) else none))])) k = id k := by
        intro k hk
        have hkm := (sortKeys_mem _ k).mp hk
        obtain ⟨row, -, hkeq⟩ := List.mem_map.mp hkm
        have hklen : k.length = (groupersOf cfg).length := by
          rw [← hkeq, List.length_map]
        simp only [Function.comp_apply, id]
        exact List.take_left' hklen
      rw [List.map_congr_left hid, List.map_id]
  · show List.Chain' keyLt _
    rw [hrows]
    exact sortKeys_chain _
  · intro k
    rw [hrows, sortKeys_mem]
    exact List.mem_map

/-- C1 witness: the grouping property instantiated on a concrete two-row
table with Count aggregation. -/
theorem build_chart_data_grouping_witness :
    ((("Count" : String) ∈ (["Count", "Sum", "Mean", "Min", "Max"] : List String)) ∧
      (∀ g ∈ groupersOf ⟨"Pie", "x", "y", "Count", "(none)", "(none)", "(none)",
          "(none)", "(none)", 480⟩,
        Table.hasCol ⟨[("x", .object), ("y", .numeric)],
          [[some (.vStr "b"), some (.vNum 1)], [some (.vStr "a"), some (.vNum 2)]]⟩ g = true) ∧
      (Table.hasCol ⟨[("x", .object), ("y", .numeric)],
        [[some (.vStr "b"), some (.vNum 1)], [some (.vStr "a"), some (.vNum 2)]]⟩ "y" = true) ∧
      (Table.dtypeOf ⟨[("x", .object), ("y", .numeric)],
        [[some (.vStr "b"), some (.vNum 1)], [some (.vStr "a"), some (.vNum 2)]]⟩ "y"
        = .numeric) ∧
      (groupersOf ⟨"Pie", "x", "y", "Count", "(none)", "(none)", "(none)", "(none)",
        "(none)", 480⟩).Nodup ∧
      (("y" : String) ∉ groupersOf ⟨"Pie", "x", "y", "Count", "(none)", "(none)",
        "(none)", "(none)", "(none)", 480⟩)) ∧
    C1_prop ⟨[("x", .object), ("y", .numeric)],
        [[some (.vStr "b"), some (.vNum 1)], [some (.vStr "a"), some (.vNum 2)]]⟩
      ⟨"Pie", "x", "y", "Count", "(none)", "(none)", "(none)", "(none)", "(none)", 480⟩ :=
  ⟨⟨by decide, by decide, by decide, by decide, by decide, by decide⟩,
    build_chart_data_grouping _ _ (by decide) (by decide) (by decide) (by decide)
      (by decide) (by decide)⟩
